import Mathlib

/-!
Verification development for the BookStack Video Service (BSVS).

The repository ships the BookStack editor plugin
(`web/static/js/bookstack-plugin.js`); the service core (viewer-token
validation, streaming gate, job scheduler, transcode pipeline) is specified
in the architecture documents.  Plugin functions below are shallow
embeddings of the JavaScript source; core components not present in the
source tree are modelled from the spec, and each such definition says so in
its doc comment.
-/

namespace BSVS

/-! ## Plugin: embed-code generation (bookstack-plugin.js, generateEmbedCode) -/

/-- Video metadata as returned by fetchVideoInfo; `visibility` may be absent,
in which case the plugin defaults it to "public" (line 423). -/
structure VideoInfo where
  visibility : Option String
  deriving DecidableEq, Repr

/-- Response of the POST /api/auth/viewer-token endpoint (requestViewerToken). -/
structure TokenResponse where
  token : String
  deriving DecidableEq, Repr

/-- Observable outcome of generateEmbedCode: whether a viewer-token request was
issued, and the query parameters of the embed URL in order. -/
structure EmbedResult where
  requestedToken : Bool
  params : List (String × String)
  deriving DecidableEq, Repr

/-- Shallow embedding of generateEmbedCode (bookstack-plugin.js lines 419-453).
`fetchResult` models the awaited fetchVideoInfo call (`none` = the call threw,
taking the outer catch branch that emits the basic fallback embed);
`tokenResult` models requestViewerToken (`none` = the call threw, caught at
lines 438-441, leaving the embed without a `vt` parameter). -/
def generateEmbedCode (pageId : Option String)
    (fetchResult : Option VideoInfo) (tokenResult : Option TokenResponse) :
    EmbedResult :=
  match fetchResult with
  | none =>
    { requestedToken := false
      params := match pageId with
        | some p => [("page_id", p)]
        | none => [] }
  | some video =>
    let visibility := video.visibility.getD "public"
    let params0 : List (String × String) :=
      match pageId with
      | some p => [("page_id", p)]
      | none => []
    if visibility = "page_protected" then
      match tokenResult with
      | some tr =>
        { requestedToken := true, params := params0 ++ [("vt", tr.token)] }
      | none =>
        { requestedToken := true, params := params0 }
    else
      { requestedToken := false, params := params0 }

/-- Whether the embed URL carries a query parameter with key `k`. -/
def hasParam (r : EmbedResult) (k : String) : Bool :=
  r.params.any (fun q => q.1 = k)

/-! ## Plugin: escapeHtml (bookstack-plugin.js lines 666-670)

The source routes the text through a detached DOM node
(`div.textContent = text; return div.innerHTML`); serializing a text node
replaces exactly the markup-significant characters ampersand, less-than and
greater-than by their entities.  We embed that serialization per character. -/

/-- Per-character HTML text-node escape performed by the DOM serialization the
plugin's escapeHtml relies on. -/
def escCharL (c : Char) : List Char :=
  if c = '&' then ['&', 'a', 'm', 'p', ';']
  else if c = '<' then ['&', 'l', 't', ';']
  else if c = '>' then ['&', 'g', 't', ';']
  else [c]

/-- escapeHtml on the character list underlying the string. -/
def escapeHtmlL (cs : List Char) : List Char :=
  (cs.map escCharL).flatten

/-- Shallow embedding of escapeHtml (bookstack-plugin.js lines 666-670). -/
def escapeHtml (s : String) : String :=
  String.mk (escapeHtmlL s.data)

/-! ## Plugin: waitForReady (bookstack-plugin.js lines 397-416) -/

/-- The `job` object of a status response, as read by the progress callback. -/
structure JobInfo where
  progress : Option Nat
  status : String
  deriving DecidableEq, Repr

/-- Response of GET /api/videos/(id)/status as consumed by waitForReady. -/
structure StatusResponse where
  status : String
  job : Option JobInfo
  deriving DecidableEq, Repr

/-- Outcome of waitForReady: returning the data on "ready", throwing
"Video processing failed" on "failed", or throwing
"Video processing timed out" after maxAttempts polls. -/
inductive WaitResult where
  | ready (data : StatusResponse)
  | failedErr
  | timedOut
  deriving DecidableEq, Repr

/-- maxAttempts = 120 (bookstack-plugin.js line 398, "10 minutes max"). -/
def maxAttempts : Nat := 120

/-- The polling loop of waitForReady: `poll i` is the response of the i-th
status fetch; `fuel` is the number of loop iterations remaining. -/
def waitForReadyAux (poll : Nat → StatusResponse) : Nat → Nat → WaitResult
  | 0, _ => .timedOut
  | fuel + 1, i =>
    let data := poll i
    if data.status = "ready" then .ready data
    else if data.status = "failed" then .failedErr
    else waitForReadyAux poll fuel (i + 1)

/-- Shallow embedding of waitForReady (bookstack-plugin.js lines 397-416). -/
def waitForReady (poll : Nat → StatusResponse) : WaitResult :=
  waitForReadyAux poll maxAttempts 0

/-- Number of status fetches waitForReady performs on `poll`, starting with
`fuel` iterations remaining at index `i`. -/
def waitPollsAux (poll : Nat → StatusResponse) : Nat → Nat → Nat
  | 0, _ => 0
  | fuel + 1, i =>
    let data := poll i
    if data.status = "ready" then 1
    else if data.status = "failed" then 1
    else 1 + waitPollsAux poll fuel (i + 1)

/-- Number of status fetches a full run of waitForReady performs. -/
def waitPolls (poll : Nat → StatusResponse) : Nat :=
  waitPollsAux poll maxAttempts 0

/-- A response that lets the polling loop continue: neither "ready" nor
"failed". -/
def nonTerminal (s : StatusResponse) : Prop :=
  s.status ≠ "ready" ∧ s.status ≠ "failed"

instance (s : StatusResponse) : Decidable (nonTerminal s) := by
  unfold nonTerminal; infer_instance

/-! ## Plugin: video library rendering (bookstack-plugin.js lines 623-663) -/

/-- A video record of the GET /api/videos listing, with the fields the library
rendering reads. -/
structure LibraryVideo where
  id : String
  title : String
  status : String
  visibility : Option String
  deriving DecidableEq, Repr

/-- One rendered, selectable library item: the data-id attribute used for
selection and the escaped title markup. -/
structure LibraryEntry where
  dataId : String
  titleHtml : String
  deriving DecidableEq, Repr

/-- Markup of one library item (the map body at lines 636-650). -/
def renderLibraryEntry (v : LibraryVideo) : LibraryEntry :=
  { dataId := v.id, titleHtml := escapeHtml v.title }

/-- Shallow embedding of loadVideoLibrary's list rendering (bookstack-plugin.js
lines 634-650): filter to status "ready", then render each item. -/
def loadVideoLibrary (videos : List LibraryVideo) : List LibraryEntry :=
  (videos.filter (fun v => v.status = "ready")).map renderLibraryEntry

/-! ## Plugin: upload progress bar (bookstack-plugin.js lines 608-611)

The progress callback sets the bar width to `30 + progress * 0.7` percent. -/

/-- The progress-bar width set by handleFileUpload's callback for a reported
job progress `p` (line 609). -/
def progressBarWidth (p : ℚ) : ℚ :=
  30 + p * (7 / 10)

/-! ## Core: viewer tokens (spec §3, §4.3, §6)

The access-authorization core is not in the source tree; it is modelled
from the spec. -/

/-- Modelled from the spec: the ViewerToken of §3 and §6 — a signed compact
structure carrying the video id, an optional external page id, an expiry,
and a signature over those claims.  It is stateless: trust derives entirely
from signature validity and expiry, never from a storage lookup. -/
structure ViewerToken where
  videoId : String
  pageId : Option Nat
  expiry : Nat
  sig : Nat
  deriving DecidableEq, Repr

/-- Modelled from the spec: the deployment-secret signature over a token's
claims (§6, "signature algorithm and key are a deployment secret").  Any
concrete keyed mixing function stands in for the HMAC; validation only
compares signatures for equality. -/
def signClaims (key : Nat) (videoId : String) (pageId : Option Nat)
    (expiry : Nat) : Nat :=
  videoId.data.foldl (fun h c => h * 131 + c.toNat)
    (key * 1000003 + expiry * 31 +
      (match pageId with
       | some p => p + 1
       | none => 0))

/-- Modelled from the spec (§4.3): validation of a viewer token checks
signature integrity, expiry not passed, and that the embedded video id
matches the requested resource.  The function takes no job store and no
permission oracle: tokens are pre-authorized capability grants, so no
persistent-storage lookup and no re-check against the external permission
system occurs at validation time. -/
def validateViewerToken (key : Nat) (tok : ViewerToken)
    (requestedVideoId : String) (now : Nat) : Bool :=
  (tok.sig == signClaims key tok.videoId tok.pageId tok.expiry)
    && decide (now < tok.expiry)
    && (tok.videoId == requestedVideoId)

/-! ## Core: streaming gate (spec §4.4) -/

/-- The four visibility tiers of a video (spec §3). -/
inductive Visibility where
  | visPublic
  | visUnlisted
  | visPageProtected
  | visPrivate
  deriving DecidableEq, Repr

/-- Credentials a stream request may present (spec §4.3): management
credentials, a viewer token, or nothing. -/
inductive Credential where
  | management
  | viewer (tok : ViewerToken)
  | anonymous
  deriving DecidableEq, Repr

/-- The video fields the streaming gate resolves (spec §4.4): id, visibility,
optional owning page, and processing status. -/
structure GateVideo where
  id : String
  visibility : Visibility
  pageId : Option Nat
  status : String
  deriving DecidableEq, Repr

/-- Outcomes of the streaming gate (spec §4.4, §7): serve the request, deny
with Forbidden, deny with a NotFound-equivalent, or report the in-progress
status to an authorized caller. -/
inductive GateDecision where
  | allow
  | forbidden
  | notFound
  | inProgress
  deriving DecidableEq, Repr

/-- Modelled from the spec (§4.4 Streaming Gate): public/unlisted allow
unconditionally; page_protected requires management credentials or a valid,
non-expired viewer token matching the video id (and, if both carry one, the
page id); private requires management credentials and never accepts a
viewer token.  Regardless of visibility, a video whose status is not
"ready" yields NotFound to an unauthorized caller, while an authorized
caller sees the in-progress status. -/
def streamingGate (key : Nat) (video : GateVideo) (cred : Credential)
    (now : Nat) : GateDecision :=
  let authorized :=
    match video.visibility with
    | .visPublic => true
    | .visUnlisted => true
    | .visPageProtected =>
      match cred with
      | .management => true
      | .viewer tok =>
        validateViewerToken key tok video.id now
          && (match video.pageId, tok.pageId with
              | some pid, some tpid => pid == tpid
              | _, _ => true)
      | .anonymous => false
    | .visPrivate =>
      match cred with
      | .management => true
      | _ => false
  if authorized then
    if video.status == "ready" then .allow else .inProgress
  else
    if video.status == "ready" then .forbidden else .notFound

/-! ## Core: job scheduler admission (spec §4.2) -/

/-- Status of a transcode job (spec §3). -/
inductive JobStatus where
  | queued
  | processing
  | completed
  | failed
  deriving DecidableEq, Repr

/-- A job is active when queued or processing (spec §3). -/
def isActive (s : JobStatus) : Bool :=
  s == .queued || s == .processing

/-- A transcode-job row: id, owning video, status (spec §3). -/
structure Job where
  id : Nat
  videoId : String
  status : JobStatus
  deriving DecidableEq, Repr

/-- Whether the store holds an active job for the given video. -/
def hasActiveJob (store : List Job) (vid : String) : Bool :=
  store.any (fun j => j.videoId == vid && isActive j.status)

/-- Number of active jobs for the given video in the store. -/
def activeCount (store : List Job) (vid : String) : Nat :=
  (store.filter (fun j => j.videoId == vid && isActive j.status)).length

/-- At most one active (queued or processing) job per video (spec §3). -/
def atMostOneActive (store : List Job) : Prop :=
  ∀ vid, activeCount store vid ≤ 1

/-- The admission error of the scheduler contract (spec §4.2, §7). -/
inductive SubmitError where
  | Conflict
  deriving DecidableEq, Repr

/-- Modelled from the spec (§4.2): submit(videoId) -> jobId fails with
Conflict when an active job already exists for that video, and otherwise
appends a new queued job row (a failed job may be retried by a new row
while the old one remains as history).  Returns the admission result
together with the resulting job store. -/
def submit (store : List Job) (vid : String) (newId : Nat) :
    Except SubmitError Nat × List Job :=
  if hasActiveJob store vid then
    (.error .Conflict, store)
  else
    (.ok newId, store ++ [{ id := newId, videoId := vid, status := .queued }])

/-! ## Core: transcode stage (spec §4.1) -/

/-- A target rendition definition: label, max height, target bitrate
(spec glossary; src/SPEC.md quality presets). -/
structure Preset where
  name : String
  height : Nat
  bitrate : Nat
  deriving DecidableEq, Repr

/-- One encoded output at a specific quality (spec §3 Variant). -/
structure Rendition where
  quality : String
  height : Nat
  deriving DecidableEq, Repr

/-- Modelled from the spec (§4.1): presets whose target height exceeds the
source resolution are skipped — never upscale. -/
def applicablePresets (presets : List Preset) (srcHeight : Nat) :
    List Preset :=
  presets.filter (fun p => decide (p.height ≤ srcHeight))

/-- Modelled from the spec (§4.1): run each preset independently through the
encoder (`encode p = true` means preset p's invocation succeeded); a failing
preset produces no rendition and does not abort the others. -/
def runPresets (presets : List Preset) (encode : Preset → Bool) :
    List Rendition :=
  presets.filterMap (fun p =>
    if encode p then some { quality := p.name, height := p.height }
    else none)

/-- Modelled from the spec (§4.1): if skipping leaves zero presets to run,
fall back to one rendition at source resolution. -/
def transcodeStage (presets : List Preset) (srcHeight : Nat)
    (encode : Preset → Bool) : List Rendition :=
  let applicable := applicablePresets presets srcHeight
  if applicable.isEmpty then
    [{ quality := "source", height := srcHeight }]
  else
    runPresets applicable encode

/-- Modelled from the spec (§4.1): the job is marked completed only if at
least one preset succeeded; zero successes marks the job failed. -/
def jobOutcome (renditions : List Rendition) : JobStatus :=
  if renditions.isEmpty then .failed else .completed

/-! ## Core: pipeline progress (spec §4.1)

Progress is a weighted sum over stage weights (probe 5%, transcode 60%,
package 30%, thumbnail 5%) and the fractional completion within the
current stage. -/

/-- The ordered pipeline stages of a job (spec §4.1). -/
inductive PipelineStage where
  | probing
  | transcoding
  | packaging
  | thumbnailing
  | done
  deriving DecidableEq, Repr

/-- Position of a stage in the strictly forward stage order. -/
def stageIndex : PipelineStage → Nat
  | .probing => 0
  | .transcoding => 1
  | .packaging => 2
  | .thumbnailing => 3
  | .done => 4

/-- Progress contributed by all stages before the given one (weights
5/60/30/5, spec §4.1). -/
def stageBase : PipelineStage → ℚ
  | .probing => 0
  | .transcoding => 5
  | .packaging => 65
  | .thumbnailing => 95
  | .done => 100

/-- Weight of the given stage itself (spec §4.1). -/
def stageWeight : PipelineStage → ℚ
  | .probing => 5
  | .transcoding => 60
  | .packaging => 30
  | .thumbnailing => 5
  | .done => 0

/-- A job's position in the pipeline: current stage plus fractional
completion within it (in [0,1]). -/
structure JobState where
  stage : PipelineStage
  frac : ℚ
  deriving DecidableEq, Repr

/-- Modelled from the spec (§4.1): reported progress is the weighted sum over
completed stage weights plus the current stage's weight scaled by the
within-stage fraction. -/
def jobProgress (s : JobState) : ℚ :=
  stageBase s.stage + stageWeight s.stage * s.frac

/-- A state is well-formed when its within-stage fraction lies in [0,1]. -/
def wfState (s : JobState) : Prop :=
  0 ≤ s.frac ∧ s.frac ≤ 1

/-- The pipeline's forward order on job states: a later stage, or the same
stage with no smaller fraction. -/
def stateLe (s t : JobState) : Prop :=
  stageIndex s.stage < stageIndex t.stage ∨
    (s.stage = t.stage ∧ s.frac ≤ t.frac)

/-! ## Theorems -/

/-- C1: generateEmbedCode requests a viewer token exactly when the fetched
video's visibility is "page_protected" (an absent visibility is treated as
"public"), and — when the token service responds — the embed URL carries a
`vt` query parameter exactly in that case; for "public", "unlisted",
"private" or absent visibility no token request is made and no `vt`
parameter appears. -/
theorem generateEmbedCode_vt_iff_page_protected
    (pageId : Option String) (video : VideoInfo) :
    (∀ tokenResult,
        (generateEmbedCode pageId (some video) tokenResult).requestedToken =
          (video.visibility.getD "public" == "page_protected"))
    ∧ (∀ tr : TokenResponse,
        hasParam (generateEmbedCode pageId (some video) (some tr)) "vt" =
          (video.visibility.getD "public" == "page_protected")) := by
  constructor
  · intro tokenResult
    by_cases h : video.visibility.getD "public" = "page_protected"
    · cases tokenResult <;> simp [generateEmbedCode, h]
    · simp [generateEmbedCode, h]
  · intro tr
    by_cases h : video.visibility.getD "public" = "page_protected"
    · cases pageId <;> simp [generateEmbedCode, hasParam, h]
    · cases pageId <;> simp [generateEmbedCode, hasParam, h]

/-- Witness for C1: a page_protected video's embed carries the vt parameter
once the token service answered, while a public video's embed triggers no
token request. -/
theorem generateEmbedCode_vt_iff_page_protected_witness :
    hasParam (generateEmbedCode (some "12")
        (some { visibility := some "page_protected" })
        (some { token := "tok" })) "vt" = true
    ∧ (generateEmbedCode (some "12") (some { visibility := some "public" })
        (some { token := "tok" })).requestedToken = false :=
  ⟨((generateEmbedCode_vt_iff_page_protected (some "12")
      { visibility := some "page_protected" }).2
        { token := "tok" }).trans (by decide),
   ((generateEmbedCode_vt_iff_page_protected (some "12")
      { visibility := some "public" }).1
        (some { token := "tok" })).trans (by decide)⟩

/-- Characters produced by the per-character escape never include a raw
markup character. -/
theorem escCharL_no_markup (a : Char) :
    '<' ∉ escCharL a ∧ '>' ∉ escCharL a := by
  unfold escCharL
  split_ifs with h1 h2 h3
  · exact ⟨by decide, by decide⟩
  · exact ⟨by decide, by decide⟩
  · exact ⟨by decide, by decide⟩
  · constructor
    · simp only [List.mem_singleton]
      exact fun h => h2 h.symm
    · simp only [List.mem_singleton]
      exact fun h => h3 h.symm

/-- C10: escapeHtml replaces every ampersand, less-than and greater-than by
its entity and leaves every other character unchanged; it distributes over
concatenation, its output never contains a raw '<' or '>', and the library
markup interpolates exactly this escape of the video title. -/
theorem escapeHtml_escapes_markup :
    (escapeHtml (String.mk ['&']) = "&amp;"
      ∧ escapeHtml (String.mk ['<']) = "&lt;"
      ∧ escapeHtml (String.mk ['>']) = "&gt;")
    ∧ (∀ c : Char, c ≠ '&' → c ≠ '<' → c ≠ '>' →
        escapeHtml (String.mk [c]) = String.mk [c])
    ∧ (∀ s t : String, escapeHtml (s ++ t) = escapeHtml s ++ escapeHtml t)
    ∧ (∀ s : String, '<' ∉ (escapeHtml s).data ∧ '>' ∉ (escapeHtml s).data)
    ∧ (∀ v : LibraryVideo,
        (renderLibraryEntry v).titleHtml = escapeHtml v.title) := by
  refine ⟨⟨by decide, by decide, by decide⟩, ?_, ?_, ?_, fun v => rfl⟩
  · intro c h1 h2 h3
    simp [escapeHtml, escapeHtmlL, escCharL, h1, h2, h3]
  · intro s t
    cases s with
    | mk a =>
      cases t with
      | mk b =>
        show String.mk (escapeHtmlL (a ++ b)) = _
        simp only [escapeHtml, escapeHtmlL, List.map_append,
          List.flatten_append]
        rfl
  · intro s
    constructor
    · simp only [escapeHtml, escapeHtmlL, List.mem_flatten, List.mem_map]
      rintro ⟨l, ⟨c, _, rfl⟩, hmem⟩
      exact (escCharL_no_markup c).1 hmem
    · simp only [escapeHtml, escapeHtmlL, List.mem_flatten, List.mem_map]
      rintro ⟨l, ⟨c, _, rfl⟩, hmem⟩
      exact (escCharL_no_markup c).2 hmem

/-- Witness for C10: an ordinary letter passes through the escape
unchanged. -/
theorem escapeHtml_escapes_markup_witness :
    escapeHtml (String.mk ['a']) = String.mk ['a'] :=
  escapeHtml_escapes_markup.2.1 'a' (by decide) (by decide) (by decide)

/-- C9: loadVideoLibrary renders a selectable entry exactly for the videos of
the listing whose status is "ready"; a listing with no ready video renders
nothing. -/
theorem loadVideoLibrary_only_ready (videos : List LibraryVideo) :
    (∀ e : LibraryEntry, e ∈ loadVideoLibrary videos ↔
        ∃ v, v ∈ videos ∧ v.status = "ready" ∧ e = renderLibraryEntry v)
    ∧ ((∀ v, v ∈ videos → v.status ≠ "ready") →
        loadVideoLibrary videos = []) := by
  constructor
  · intro e
    simp only [loadVideoLibrary, List.mem_map, List.mem_filter,
      decide_eq_true_eq]
    constructor
    · rintro ⟨v, ⟨hv, hs⟩, rfl⟩
      exact ⟨v, hv, hs, rfl⟩
    · rintro ⟨v, hv, hs, rfl⟩
      exact ⟨v, ⟨hv, hs⟩, rfl⟩
  · intro h
    have : videos.filter (fun v => v.status = "ready") = [] := by
      rw [List.filter_eq_nil_iff]
      intro v hv
      simpa using h v hv
    simp [loadVideoLibrary, this]

/-- A pending video used to instantiate the library-rendering theorem. -/
def pendingVideo : LibraryVideo :=
  { id := "v1", title := "Draft", status := "pending", visibility := none }

/-- Witness for C9: a listing holding only a pending video renders no entry. -/
theorem loadVideoLibrary_only_ready_witness :
    loadVideoLibrary [pendingVideo] = [] :=
  (loadVideoLibrary_only_ready [pendingVideo]).2 (by decide)

/-- The polling loop performs at most as many fetches as it has iterations
left. -/
theorem waitPollsAux_le (poll : Nat → StatusResponse) :
    ∀ fuel i, waitPollsAux poll fuel i ≤ fuel := by
  intro fuel
  induction fuel with
  | zero => intro i; simp [waitPollsAux]
  | succ n ih =>
    intro i
    simp only [waitPollsAux]
    split_ifs
    · omega
    · omega
    · have := ih (i + 1)
      omega

/-- A non-terminal response makes the loop continue at the next index. -/
theorem waitForReadyAux_nonTerminal_step (poll : Nat → StatusResponse)
    (fuel i : Nat) (h : nonTerminal (poll i)) :
    waitForReadyAux poll (fuel + 1) i = waitForReadyAux poll fuel (i + 1) := by
  obtain ⟨h1, h2⟩ := h
  simp [waitForReadyAux, h1, h2]

/-- When every remaining poll is non-terminal, the loop times out. -/
theorem waitForReadyAux_timeout (poll : Nat → StatusResponse) :
    ∀ fuel i, (∀ j, j < fuel → nonTerminal (poll (i + j))) →
      waitForReadyAux poll fuel i = .timedOut := by
  intro fuel
  induction fuel with
  | zero => intro i _; rfl
  | succ n ih =>
    intro i h
    have h0 : nonTerminal (poll i) := by
      simpa using h 0 (Nat.succ_pos n)
    rw [waitForReadyAux_nonTerminal_step poll n i h0]
    apply ih
    intro j hj
    have hidx : i + 1 + j = i + (j + 1) := by omega
    rw [hidx]
    exact h (j + 1) (by omega)

/-- The loop returns the first terminal response it meets, within fuel. -/
theorem waitForReadyAux_first_terminal (poll : Nat → StatusResponse) :
    ∀ fuel k i, k < fuel → (∀ j, j < k → nonTerminal (poll (i + j))) →
      (((poll (i + k)).status = "ready" →
          waitForReadyAux poll fuel i = .ready (poll (i + k)))
        ∧ ((poll (i + k)).status = "failed" →
          waitForReadyAux poll fuel i = .failedErr)) := by
  intro fuel
  induction fuel with
  | zero => intro k i hk; omega
  | succ n ih =>
    intro k i hk hpre
    cases k with
    | zero =>
      constructor
      · intro hr
        simp only [Nat.add_zero] at hr ⊢
        simp [waitForReadyAux, hr]
      · intro hf
        simp only [Nat.add_zero] at hf ⊢
        simp [waitForReadyAux, hf]
    | succ m =>
      have h0 : nonTerminal (poll i) := by
        simpa using hpre 0 (Nat.succ_pos m)
      rw [waitForReadyAux_nonTerminal_step poll n i h0]
      have hpre' : ∀ j, j < m → nonTerminal (poll (i + 1 + j)) := by
        intro j hj
        have hidx : i + 1 + j = i + (j + 1) := by omega
        rw [hidx]
        exact hpre (j + 1) (by omega)
      have hidx : i + 1 + m = i + (m + 1) := by omega
      have := ih m (i + 1) (by omega) hpre'
      rw [hidx] at this
      exact this

/-- C8: waitForReady performs at most 120 status polls and always
terminates: it returns the response data at the first poll reporting
"ready", signals processing failure at the first poll reporting "failed",
and signals a timeout when none of the 120 polls reports a terminal
status. -/
theorem waitForReady_spec (poll : Nat → StatusResponse) :
    waitPolls poll ≤ maxAttempts
    ∧ (∀ k, k < maxAttempts → (∀ j, j < k → nonTerminal (poll j)) →
        (((poll k).status = "ready" → waitForReady poll = .ready (poll k))
          ∧ ((poll k).status = "failed" → waitForReady poll = .failedErr)))
    ∧ ((∀ j, j < maxAttempts → nonTerminal (poll j)) →
        waitForReady poll = .timedOut) := by
  refine ⟨waitPollsAux_le poll maxAttempts 0, ?_, ?_⟩
  · intro k hk hpre
    have := waitForReadyAux_first_terminal poll maxAttempts k 0 hk
      (by simpa using hpre)
    simpa [waitForReady] using this
  · intro h
    exact waitForReadyAux_timeout poll maxAttempts 0 (by simpa using h)

/-- A status endpoint that reports "processing" twice and then "ready". -/
def examplePoll : Nat → StatusResponse :=
  fun i =>
    if i < 2 then { status := "processing", job := none }
    else { status := "ready", job := none }

/-- Witness for C8: against examplePoll, waitForReady returns the third
response. -/
theorem waitForReady_spec_witness :
    waitForReady examplePoll = .ready (examplePoll 2) :=
  ((waitForReady_spec examplePoll).2.1 2 (by decide) (by decide)).1 (by decide)

/-- C2: viewer-token validation rejects a token whose embedded video id
differs from the requested one; a token accepted at some earlier time is
rejected at every time at or after its expiry; and acceptance holds exactly
when the signature is intact, the expiry has not passed, and the video id
matches — the validator takes no job store and no permission oracle, so no
storage lookup or permission re-check can occur. -/
theorem validateViewerToken_spec (key : Nat) (tok : ViewerToken)
    (vid : String) :
    (∀ now, tok.videoId ≠ vid → validateViewerToken key tok vid now = false)
    ∧ (∀ t1 t2, validateViewerToken key tok vid t1 = true →
        tok.expiry ≤ t2 → validateViewerToken key tok vid t2 = false)
    ∧ (∀ now, validateViewerToken key tok vid now = true ↔
        (tok.sig = signClaims key tok.videoId tok.pageId tok.expiry
          ∧ now < tok.expiry ∧ tok.videoId = vid)) := by
  refine ⟨?_, ?_, ?_⟩
  · intro now h
    simp [validateViewerToken, h]
  · intro t1 t2 _ h2
    have : ¬ t2 < tok.expiry := by omega
    simp [validateViewerToken, this]
  · intro now
    simp [validateViewerToken, and_assoc]

/-- A concrete deployment key for the token witnesses. -/
def exampleKey : Nat := 7

/-- A token correctly signed under exampleKey for video "vid-a", page 3,
expiring at time 1000. -/
def exampleToken : ViewerToken :=
  { videoId := "vid-a", pageId := some 3, expiry := 1000,
    sig := signClaims 7 "vid-a" (some 3) 1000 }

/-- Witness for C2: the signed token is refused for the wrong video, and
refused at its expiry instant even though it validated just before. -/
theorem validateViewerToken_spec_witness :
    validateViewerToken exampleKey exampleToken "vid-b" 10 = false
    ∧ validateViewerToken exampleKey exampleToken "vid-a" 1000 = false :=
  ⟨(validateViewerToken_spec exampleKey exampleToken "vid-b").1 10 (by decide),
   (validateViewerToken_spec exampleKey exampleToken "vid-a").2.1 999 1000
     (by decide) (by decide)⟩

/-- C3: for a video of private visibility the streaming gate never serves a
request presenting a viewer token — even one with intact signature,
unexpired, and matching the video id — it serves only management
credentials; and the plugin's generateEmbedCode neither requests nor
attaches a viewer token when the fetched video reports visibility
"private". -/
theorem private_never_accepts_viewer_token (key : Nat) (video : GateVideo)
    (now : Nat) (hvis : video.visibility = .visPrivate) :
    (∀ tok : ViewerToken, validateViewerToken key tok video.id now = true →
        streamingGate key video (.viewer tok) now ≠ .allow)
    ∧ (∀ cred, streamingGate key video cred now = .allow →
        cred = .management)
    ∧ (video.status = "ready" →
        streamingGate key video .management now = .allow)
    ∧ (∀ pageId tokenResult,
        (generateEmbedCode pageId (some { visibility := some "private" })
            tokenResult).requestedToken = false
        ∧ hasParam (generateEmbedCode pageId
            (some { visibility := some "private" }) tokenResult) "vt"
            = false) := by
  refine ⟨?_, ?_, ?_, ?_⟩
  · intro tok _
    by_cases hready : video.status = "ready" <;>
      simp [streamingGate, hvis, hready]
  · intro cred h
    cases cred with
    | management => rfl
    | viewer tok =>
      by_cases hready : video.status = "ready" <;>
        simp [streamingGate, hvis, hready] at h
    | anonymous =>
      by_cases hready : video.status = "ready" <;>
        simp [streamingGate, hvis, hready] at h
  · intro hready
    simp [streamingGate, hvis, hready]
  · intro pageId tokenResult
    cases tokenResult <;> cases pageId <;>
      simp [generateEmbedCode, hasParam]

/-- A private, ready video owned by no page, used to instantiate the gate
theorem. -/
def examplePrivateVideo : GateVideo :=
  { id := "vid-a", visibility := .visPrivate, pageId := none,
    status := "ready" }

/-- Witness for C3: the gate refuses the correctly signed, unexpired,
video-matching token on the private video yet serves management
credentials. -/
theorem private_never_accepts_viewer_token_witness :
    streamingGate exampleKey examplePrivateVideo (.viewer exampleToken) 10
        ≠ .allow
    ∧ streamingGate exampleKey examplePrivateVideo .management 10 = .allow :=
  ⟨(private_never_accepts_viewer_token exampleKey examplePrivateVideo 10
      (by decide)).1 exampleToken (by decide),
   (private_never_accepts_viewer_token exampleKey examplePrivateVideo 10
      (by decide)).2.2.1 (by decide)⟩

/-- Appending one job row adds one to the active count of its video when the
row is active for that video, and nothing otherwise. -/
theorem activeCount_append_one (store : List Job) (j : Job) (vid : String) :
    activeCount (store ++ [j]) vid =
      activeCount store vid +
        cond (j.videoId == vid && isActive j.status) 1 0 := by
  simp only [activeCount, List.filter_append, List.length_append]
  congr 1
  by_cases h : (j.videoId == vid && isActive j.status) = true
  · simp [h]
  · simp [List.filter_cons, h]

/-- No active job for a video means its active count is zero. -/
theorem hasActiveJob_false_iff (store : List Job) (vid : String) :
    hasActiveJob store vid = false ↔ activeCount store vid = 0 := by
  simp only [hasActiveJob, activeCount, List.length_eq_zero,
    List.filter_eq_nil_iff]
  rw [← Bool.not_eq_true, List.any_eq_true]
  push_neg
  constructor
  · intro h j hj
    simp [h j hj]
  · intro h j hj
    simp [h j hj]

/-- C4: submit fails with Conflict and changes nothing while an active job
exists for the video; once every job of that video is terminal, it succeeds
and appends exactly one fresh queued job; admission preserves the
at-most-one-active-job-per-video invariant; and an immediate second submit
for the same video after a successful one fails with Conflict. -/
theorem submit_spec (store : List Job) (vid : String) (newId : Nat) :
    (hasActiveJob store vid = true →
        submit store vid newId = (.error .Conflict, store))
    ∧ ((∀ j ∈ store, j.videoId = vid → isActive j.status = false) →
        submit store vid newId =
          (.ok newId,
            store ++ [{ id := newId, videoId := vid, status := .queued }]))
    ∧ (atMostOneActive store → atMostOneActive (submit store vid newId).2)
    ∧ ((submit store vid newId).1 = .ok newId →
        ∀ newId2,
          (submit (submit store vid newId).2 vid newId2).1 =
            .error .Conflict) := by
  refine ⟨?_, ?_, ?_, ?_⟩
  · intro h
    simp [submit, h]
  · intro h
    have hno : hasActiveJob store vid = false := by
      rw [← Bool.not_eq_true, hasActiveJob, List.any_eq_true]
      push_neg
      intro j hj
      by_cases hv : j.videoId = vid
      · simp [hv, h j hj hv]
      · simp [hv]
    simp [submit, hno]
  · intro hinv
    by_cases h : hasActiveJob store vid = true
    · simpa [submit, h] using hinv
    · rw [Bool.not_eq_true] at h
      have h0 := (hasActiveJob_false_iff store vid).mp h
      simp only [submit, h, Bool.false_eq_true, if_false, ite_false]
      intro v
      rw [activeCount_append_one]
      by_cases hv : vid = v
      · subst hv
        simp [isActive, h0]
      · have : (({ id := newId, videoId := vid, status := .queued } :
            Job).videoId == v) = false := by
          simpa using hv
        simp only [this, Bool.false_and, cond_false, Nat.add_zero]
        exact hinv v
  · intro hok newId2
    by_cases h : hasActiveJob store vid = true
    · simp [submit, h] at hok
    · rw [Bool.not_eq_true] at h
      have hstore : (submit store vid newId).2 =
          store ++ [{ id := newId, videoId := vid, status := .queued }] := by
        simp [submit, h]
      rw [hstore]
      have hactive : hasActiveJob
          (store ++ [{ id := newId, videoId := vid, status := .queued }])
          vid = true := by
        simp [hasActiveJob, List.any_append, isActive]
      simp [submit, hactive]

/-- A history row: a completed job of video "vid-a". -/
def doneJob : Job := { id := 1, videoId := "vid-a", status := .completed }

/-- An active row: a queued job of video "vid-a". -/
def queuedJob : Job := { id := 1, videoId := "vid-a", status := .queued }

/-- Witness for C4: with only a terminal job on record the submission is
admitted; with a queued job on record it conflicts and the store is
unchanged. -/
theorem submit_spec_witness :
    submit [doneJob] "vid-a" 2 =
      (.ok 2, [doneJob, { id := 2, videoId := "vid-a", status := .queued }])
    ∧ submit [queuedJob] "vid-a" 2 = (.error .Conflict, [queuedJob]) :=
  ⟨(submit_spec [doneJob] "vid-a" 2).2.1 (by decide),
   (submit_spec [queuedJob] "vid-a" 2).1 (by decide)⟩

/-- C5: over the presets a transcode job runs, a preset whose encoder
invocation succeeds always contributes its rendition — another preset's
failure never drops it — the job is marked completed exactly when at least
one preset succeeded, and zero successes mark it failed, never
completed. -/
theorem jobOutcome_spec (presets : List Preset) (encode : Preset → Bool) :
    (∀ p ∈ presets, encode p = true →
        ({ quality := p.name, height := p.height } : Rendition)
          ∈ runPresets presets encode)
    ∧ (jobOutcome (runPresets presets encode) = .completed ↔
        ∃ p ∈ presets, encode p = true)
    ∧ ((∀ p ∈ presets, encode p = false) →
        jobOutcome (runPresets presets encode) = .failed) := by
  refine ⟨?_, ?_, ?_⟩
  · intro p hp hsucc
    simp only [runPresets, List.mem_filterMap]
    exact ⟨p, hp, by simp [hsucc]⟩
  · have hnil : runPresets presets encode = [] ↔
        ∀ p ∈ presets, encode p = false := by
      rw [runPresets, List.filterMap_eq_nil_iff]
      constructor
      · intro h p hp
        have := h p hp
        by_cases hs : encode p = true
        · simp [hs] at this
        · simpa using hs
      · intro h p hp
        simp [h p hp]
    rw [jobOutcome]
    by_cases h : runPresets presets encode = []
    · rw [if_pos (by simp [h])]
      have hall := hnil.mp h
      constructor
      · intro hfc
        cases hfc
      · rintro ⟨p, hp, hs⟩
        rw [hall p hp] at hs
        cases hs
    · rw [if_neg (by simpa [List.isEmpty_iff] using h)]
      constructor
      · intro _
        by_contra hno
        push_neg at hno
        exact h (hnil.mpr (fun p hp => by simpa using hno p hp))
      · intro _
        rfl
  · intro h
    have : runPresets presets encode = [] := by
      rw [runPresets, List.filterMap_eq_nil_iff]
      intro p hp
      simp [h p hp]
    simp [jobOutcome, this]

/-- The standard 720p preset of the default ladder. -/
def preset720 : Preset := { name := "720p", height := 720, bitrate := 2500 }

/-- The standard 480p preset of the default ladder. -/
def preset480 : Preset := { name := "480p", height := 480, bitrate := 1000 }

/-- Witness for C5: with the 480p encode failing and the 720p encode
succeeding, the job still completes; with every encode failing it fails. -/
theorem jobOutcome_spec_witness :
    jobOutcome (runPresets [preset720, preset480]
        (fun p => p.name == "720p")) = .completed
    ∧ jobOutcome (runPresets [preset720, preset480]
        (fun _ => false)) = .failed :=
  ⟨(jobOutcome_spec [preset720, preset480] (fun p => p.name == "720p")).2.1.mpr
      ⟨preset720, by decide, by decide⟩,
   (jobOutcome_spec [preset720, preset480] (fun _ => false)).2.2
      (by decide)⟩

/-- C6: the transcode stage never upscales — every rendition it emits is at
most as tall as the source; every preset admitted to run satisfies
height ≤ min(height, source); a preset taller than the source is skipped;
and when that skips every preset the output is exactly one fallback
rendition at source resolution. -/
theorem transcodeStage_never_upscales (presets : List Preset)
    (srcHeight : Nat) (encode : Preset → Bool) :
    (∀ r ∈ transcodeStage presets srcHeight encode, r.height ≤ srcHeight)
    ∧ (∀ p ∈ applicablePresets presets srcHeight,
        p.height ≤ min p.height srcHeight)
    ∧ (∀ p ∈ presets, srcHeight < p.height →
        p ∉ applicablePresets presets srcHeight)
    ∧ ((∀ p ∈ presets, srcHeight < p.height) →
        transcodeStage presets srcHeight encode =
          [{ quality := "source", height := srcHeight }]) := by
  refine ⟨?_, ?_, ?_, ?_⟩
  · intro r hr
    rw [transcodeStage] at hr
    by_cases h : (applicablePresets presets srcHeight).isEmpty = true
    · rw [if_pos h] at hr
      simp only [List.mem_singleton] at hr
      subst hr
      exact Nat.le_refl _
    · rw [if_neg (by simp [h])] at hr
      simp only [runPresets, List.mem_filterMap] at hr
      obtain ⟨p, hp, hval⟩ := hr
      simp only [applicablePresets, List.mem_filter, decide_eq_true_eq]
        at hp
      by_cases hsucc : encode p = true
      · rw [if_pos hsucc] at hval
        cases hval
        exact hp.2
      · rw [if_neg hsucc] at hval
        cases hval
  · intro p hp
    simp only [applicablePresets, List.mem_filter, decide_eq_true_eq] at hp
    omega
  · intro p _ htall hmem
    simp only [applicablePresets, List.mem_filter, decide_eq_true_eq]
      at hmem
    omega
  · intro h
    have hnil : applicablePresets presets srcHeight = [] := by
      rw [applicablePresets, List.filter_eq_nil_iff]
      intro p hp
      have := h p hp
      simp
      omega
    simp [transcodeStage, hnil]

/-- The standard 1080p preset of the default ladder. -/
def preset1080 : Preset :=
  { name := "1080p", height := 1080, bitrate := 5000 }

/-- Witness for C6: a 720p-native source with only the 1080p preset enabled
skips the preset and yields exactly the fallback rendition at 720. -/
theorem transcodeStage_never_upscales_witness :
    transcodeStage [preset1080] 720 (fun _ => true) =
      [{ quality := "source", height := 720 }] :=
  (transcodeStage_never_upscales [preset1080] 720 (fun _ => true)).2.2.2
    (by decide)

/-- Every stage weight is nonnegative. -/
theorem stageWeight_nonneg (a : PipelineStage) : 0 ≤ stageWeight a := by
  cases a <;> norm_num [stageWeight]

/-- Finishing a stage never reaches past the base of any later stage. -/
theorem stageBase_step (a b : PipelineStage)
    (h : stageIndex a < stageIndex b) :
    stageBase a + stageWeight a ≤ stageBase b := by
  cases a <;> cases b <;>
    simp [stageIndex] at h ⊢ <;>
    norm_num [stageBase, stageWeight]

/-- The weighted-sum progress is monotone along the pipeline's forward
order, for states whose within-stage fraction lies in [0,1]. -/
theorem jobProgress_mono (s t : JobState) (hs : wfState s) (ht : wfState t)
    (hle : stateLe s t) : jobProgress s ≤ jobProgress t := by
  obtain ⟨hs0, hs1⟩ := hs
  obtain ⟨ht0, ht1⟩ := ht
  have hws := stageWeight_nonneg s.stage
  have hwt := stageWeight_nonneg t.stage
  rcases hle with h | ⟨hst, hf⟩
  · have h1 : jobProgress s ≤ stageBase s.stage + stageWeight s.stage := by
      rw [jobProgress]
      nlinarith
    have h2 := stageBase_step s.stage t.stage h
    have h3 : stageBase t.stage ≤ jobProgress t := by
      rw [jobProgress]
      nlinarith
    linarith
  · rw [jobProgress, jobProgress, hst]
    nlinarith

/-- C7: pipeline progress is monotonically non-decreasing along a job's
forward motion through the stages until it is done, and for any
non-decreasing reported progress in [0,100] the upload progress-bar width
30 + 0.7·p of handleFileUpload is non-decreasing and never exceeds 100. -/
theorem progress_monotone_spec :
    (∀ s t : JobState, wfState s → wfState t → stateLe s t →
        jobProgress s ≤ jobProgress t)
    ∧ (∀ p q : ℚ, 0 ≤ p → p ≤ q → q ≤ 100 →
        progressBarWidth p ≤ progressBarWidth q
          ∧ progressBarWidth q ≤ 100) := by
  refine ⟨jobProgress_mono, ?_⟩
  intro p q _ hpq hq100
  constructor
  · rw [progressBarWidth, progressBarWidth]
    nlinarith
  · rw [progressBarWidth]
    nlinarith

/-- Witness for C7: moving from a finished probe to the start of transcoding
does not decrease progress, and the bar is monotone from 50% to 100% where
it tops out at exactly 100. -/
theorem progress_monotone_spec_witness :
    jobProgress { stage := .probing, frac := 1 }
        ≤ jobProgress { stage := .transcoding, frac := 0 }
    ∧ progressBarWidth 50 ≤ progressBarWidth 100
    ∧ progressBarWidth 100 ≤ 100 :=
  ⟨progress_monotone_spec.1 { stage := .probing, frac := 1 }
      { stage := .transcoding, frac := 0 }
      ⟨by norm_num, by norm_num⟩ ⟨by norm_num, by norm_num⟩
      (Or.inl (by simp [stageIndex])),
   progress_monotone_spec.2 50 100 (by norm_num) (by norm_num)
      (by norm_num)⟩

end BSVS
